import Mathlib

/-!
Verification of the voxel data-element layer of `nifti-rs`
(`src/volume/element.rs`): typed decoding of raw byte buffers into sample
sequences and the affine rescale (`value * slope + intercept`) applied with
type-appropriate working precision.

The Rust source computes with IEEE-754 `f32`/`f64`. We embed those values
exactly: every finite float is a dyadic rational `± m * 2^e`, and each
arithmetic operation computes the exact result and rounds it to the format's
grid with round-to-nearest, ties-to-even, overflowing to infinity — the
IEEE-754 default, which is what Rust's `f32`/`f64` arithmetic performs. All
definitions are executable with structural recursion only, so concrete
evaluations reduce in the kernel.
-/

/-- Format parameters of an IEEE-754 binary floating-point type: precision in
bits, the exponent of the unit in the last place of the smallest subnormals,
and the largest finite exponent. -/
structure FpFmt where
  prec : ℕ
  emin : ℤ
  emax : ℤ
deriving DecidableEq

/-- The IEEE-754 binary32 format backing Rust's `f32`. -/
def fmt32 : FpFmt := ⟨24, -149, 127⟩

/-- The IEEE-754 binary64 format backing Rust's `f64`. -/
def fmt64 : FpFmt := ⟨53, -1074, 1023⟩

/-- Fuel-driven base-2 logarithm on naturals (`log2fuel f n` is the floor of
`log2 n` whenever `n ≤ f` and `1 ≤ n`); structural recursion keeps it
kernel-reducible. -/
def log2fuel : ℕ → ℕ → ℕ
  | 0, _ => 0
  | f + 1, n => if 2 ≤ n then log2fuel f (n / 2) + 1 else 0

/-- Floor of the base-2 logarithm of a natural number. -/
def log2n (n : ℕ) : ℕ := log2fuel n n

/-- Decide `m1 * 2^e1 = m2 * 2^e2` by shifting to a common exponent. -/
def dyadicEq (m1 : ℕ) (e1 : ℤ) (m2 : ℕ) (e2 : ℤ) : Bool :=
  if e1 ≤ e2 then decide (m1 = m2 * 2 ^ (e2 - e1).toNat)
  else decide (m1 * 2 ^ (e1 - e2).toNat = m2)

/-- Round the fraction `a / b` (with `b ≠ 0`) to the nearest natural number,
ties to even. -/
def rneNat (a b : ℕ) : ℕ :=
  let qu := a / b
  let r := a % b
  if 2 * r < b then qu
  else if b < 2 * r then qu + 1
  else if qu % 2 = 0 then qu else qu + 1

/-- Decide whether `a / b < 2 ^ c` for naturals `a, b` and integer `c`. -/
def fracLtPow2 (a b : ℕ) (c : ℤ) : Bool :=
  if 0 ≤ c then decide (a < b * 2 ^ c.toNat) else decide (a * 2 ^ (-c).toNat < b)

/-- Floor of the base-2 logarithm of the positive fraction `a / b`. -/
def floorLog2Frac (a b : ℕ) : ℤ :=
  let c : ℤ := (log2n a : ℤ) - (log2n b : ℤ)
  if fracLtPow2 a b c then c - 1 else c

/-- An IEEE-754 floating-point datum, embedded exactly: NaN, a signed
infinity, or a signed finite value of magnitude `m * 2^e` (where `m = 0`
encodes a signed zero). -/
inductive Fp where
  | nan : Fp
  | inf (neg : Bool) : Fp
  | fin (neg : Bool) (m : ℕ) (e : ℤ) : Fp
deriving DecidableEq

/-- Express `m * 2^e` as a fraction of naturals. -/
def scale (m : ℕ) (e : ℤ) : ℕ × ℕ :=
  if 0 ≤ e then (m * 2 ^ e.toNat, 1) else (m, 2 ^ (-e).toNat)

/-- Round the exact positive value `a / b` (with `a, b ≠ 0`) to the format
`fmt` using round-to-nearest, ties-to-even, with gradual underflow to the
subnormal range and overflow to infinity; `neg` is the sign carried through. -/
def roundFrac (fmt : FpFmt) (neg : Bool) (a b : ℕ) : Fp :=
  if a = 0 then .fin neg 0 0
  else
    let E := floorLog2Frac a b
    let g := max (E - (fmt.prec : ℤ) + 1) fmt.emin
    let A := if 0 ≤ g then a else a * 2 ^ (-g).toNat
    let B := if 0 ≤ g then b * 2 ^ g.toNat else b
    let n := rneNat A B
    if decide ((log2n n : ℤ) + g ≤ fmt.emax) then .fin neg n g else .inf neg

/-- IEEE-754 equality as exposed by Rust's `==` on floats: NaN compares
unequal to everything, infinities compare by sign, finite values compare by
real value (so `-0.0 == 0.0` holds). -/
def Fp.beq : Fp → Fp → Bool
  | .nan, _ => false
  | _, .nan => false
  | .inf s1, .inf s2 => s1 == s2
  | .inf _, .fin _ _ _ => false
  | .fin _ _ _, .inf _ => false
  | .fin s1 m1 e1, .fin s2 m2 e2 =>
    if m1 = 0 then decide (m2 = 0)
    else s1 == s2 && dyadicEq m1 e1 m2 e2

/-- IEEE-754 multiplication in format `fmt`: exact product, then rounding. -/
def Fp.mul (fmt : FpFmt) : Fp → Fp → Fp
  | .nan, _ => .nan
  | _, .nan => .nan
  | .inf s1, .inf s2 => .inf (s1 != s2)
  | .inf s1, .fin s2 m _ => if m = 0 then .nan else .inf (s1 != s2)
  | .fin s1 m _, .inf s2 => if m = 0 then .nan else .inf (s1 != s2)
  | .fin s1 m1 e1, .fin s2 m2 e2 =>
    if m1 = 0 ∨ m2 = 0 then .fin (s1 != s2) 0 0
    else
      let p := scale (m1 * m2) (e1 + e2)
      roundFrac fmt (s1 != s2) p.1 p.2

/-- IEEE-754 addition in format `fmt`: exact sum, then rounding. An exact
cancellation yields `+0.0` except that `-0.0 + -0.0 = -0.0`, as in the
round-to-nearest mode Rust uses. -/
def Fp.add (fmt : FpFmt) : Fp → Fp → Fp
  | .nan, _ => .nan
  | _, .nan => .nan
  | .inf s1, .inf s2 => if s1 = s2 then .inf s1 else .nan
  | .inf s1, .fin _ _ _ => .inf s1
  | .fin _ _ _, .inf s2 => .inf s2
  | .fin s1 m1 e1, .fin s2 m2 e2 =>
    let e := min e1 e2
    let z : ℤ := (if s1 then -(m1 : ℤ) else (m1 : ℤ)) * 2 ^ (e1 - e).toNat
        + (if s2 then -(m2 : ℤ) else (m2 : ℤ)) * 2 ^ (e2 - e).toNat
    if z = 0 then
      if m1 = 0 ∧ m2 = 0 then .fin (s1 && s2) 0 0 else .fin false 0 0
    else
      let p := scale z.natAbs e
      roundFrac fmt (decide (z < 0)) p.1 p.2

/-- IEEE-754 division in format `fmt`: exact quotient, then rounding. -/
def Fp.div (fmt : FpFmt) : Fp → Fp → Fp
  | .nan, _ => .nan
  | _, .nan => .nan
  | .inf _, .inf _ => .nan
  | .inf s1, .fin s2 _ _ => .inf (s1 != s2)
  | .fin s1 _ _, .inf s2 => .fin (s1 != s2) 0 0
  | .fin s1 m1 e1, .fin s2 m2 e2 =>
    if m2 = 0 then (if m1 = 0 then .nan else .inf (s1 != s2))
    else if m1 = 0 then .fin (s1 != s2) 0 0
    else
      let p := scale m1 (e1 - e2)
      roundFrac fmt (s1 != s2) p.1 (p.2 * m2)

/-- IEEE-754 negation: flip the sign bit. -/
def Fp.neg : Fp → Fp
  | .nan => .nan
  | .inf s => .inf (!s)
  | .fin s m e => .fin (!s) m e

/-- Multiplication of Rust `f32` values. -/
def f32_mul (x y : Fp) : Fp := Fp.mul fmt32 x y

/-- Addition of Rust `f32` values. -/
def f32_add (x y : Fp) : Fp := Fp.add fmt32 x y

/-- Division of Rust `f32` values. -/
def f32_div (x y : Fp) : Fp := Fp.div fmt32 x y

/-- Negation of a Rust `f32` value. -/
def f32_neg (x : Fp) : Fp := Fp.neg x

/-- Multiplication of Rust `f64` values. -/
def f64_mul (x y : Fp) : Fp := Fp.mul fmt64 x y

/-- Addition of Rust `f64` values. -/
def f64_add (x y : Fp) : Fp := Fp.add fmt64 x y

/-- The Rust cast `f32 as f64` (`AsPrimitive<f64>` on `f32`): every binary32
value is exactly representable in binary64, so the embedded value is
unchanged. -/
def f32_to_f64 (x : Fp) : Fp := x

/-- The `f32` literal `0.` appearing in the source's zero-slope guards. -/
def f32_zero : Fp := .fin false 0 0

/-- Truncate the magnitude `m * 2^e` toward zero to a natural number. -/
def dyadicTrunc (m : ℕ) (e : ℤ) : ℕ :=
  if 0 ≤ e then m * 2 ^ e.toNat else m / 2 ^ (-e).toNat

/-- The Rust cast from a float to the unsigned integer type with `bits` bits
(`AsPrimitive`, i.e. `as`): truncate toward zero and saturate at the type's
bounds; NaN casts to 0. -/
def fp_to_uint (bits : ℕ) : Fp → ℕ
  | .nan => 0
  | .inf s => if s then 0 else 2 ^ bits - 1
  | .fin s m e => if s then 0 else min (2 ^ bits - 1) (dyadicTrunc m e)

/-- The Rust cast from a float to the signed integer type with `bits` bits
(`AsPrimitive`, i.e. `as`): truncate toward zero and saturate at the type's
bounds; NaN casts to 0. -/
def fp_to_int (bits : ℕ) : Fp → ℤ
  | .nan => 0
  | .inf s => if s then -(2 ^ (bits - 1) : ℤ) else (2 ^ (bits - 1) : ℤ) - 1
  | .fin s m e =>
    if s then -((min (2 ^ (bits - 1)) (dyadicTrunc m e) : ℕ) : ℤ)
    else ((min (2 ^ (bits - 1) - 1) (dyadicTrunc m e) : ℕ) : ℤ)

/-- The Rust cast from an unsigned integer to a float of format `fmt`
(round-to-nearest, ties-to-even). -/
def fp_of_nat (fmt : FpFmt) (n : ℕ) : Fp := roundFrac fmt false n 1

/-- The Rust cast from a signed integer to a float of format `fmt`
(round-to-nearest, ties-to-even). -/
def fp_of_int (fmt : FpFmt) (z : ℤ) : Fp := roundFrac fmt (decide (z < 0)) z.natAbs 1

/-- The zero-slope guard shared by all three strategies: the source tests
`slope == 0.` with Rust's float equality before touching any arithmetic. -/
def slope_is_zero (slope : Fp) : Bool := Fp.beq slope f32_zero

/-- `LinearTransformViaF32::linear_transform` (element.rs:50-53): if
`slope == 0.` return the value unchanged, otherwise convert the value to
`f32`, compute `value * slope + intercept` in `f32`, and cast back. The
conversions `T -> f32` and `f32 -> T` of the `AsPrimitive` bounds are passed
as parameters `toW` and `ofW`; each integer instantiation supplies its own. -/
def LinearTransformViaF32.linear_transform (toW : α → Fp) (ofW : Fp → α)
    (value : α) (slope intercept : Fp) : α :=
  if slope_is_zero slope then value
  else ofW (f32_add (f32_mul (toW value) slope) intercept)

/-- `LinearTransformViaF64::linear_transform` (element.rs:62-73): if
`slope == 0.` return the value unchanged, otherwise convert slope and
intercept to `f64`, compute `value * slope + intercept` in `f64`, and cast
back through the parameters `toW`/`ofW` standing for the `AsPrimitive`
bounds of the instantiating type. -/
def LinearTransformViaF64.linear_transform (toW : α → Fp) (ofW : Fp → α)
    (value : α) (slope intercept : Fp) : α :=
  if slope_is_zero slope then value
  else ofW (f64_add (f64_mul (toW value) (f32_to_f64 slope)) (f32_to_f64 intercept))

/-- `LinearTransformViaOriginal::linear_transform` (element.rs:81-92): if
`slope == 0.` return the value unchanged, otherwise convert slope and
intercept from `f32` to the element's own type (`ofW`) and evaluate
`value * slope + intercept` with that type's multiplication and addition
(`mulW`/`addW`). -/
def LinearTransformViaOriginal.linear_transform (ofW : Fp → α) (mulW addW : α → α → α)
    (value : α) (slope intercept : Fp) : α :=
  if slope_is_zero slope then value
  else addW (mulW value (ofW slope)) (ofW intercept)

/-- `LinearTransform::linear_transform_many` (element.rs:25-29), the trait's
default body: map the scalar transform over the borrowed slice, collecting a
new vector; `f` is the `Self::linear_transform` of the implementing strategy. -/
def linear_transform_many (f : α → Fp → Fp → α) (value : List α)
    (slope intercept : Fp) : List α :=
  value.map (fun x => f x slope intercept)

/-- `LinearTransform::linear_transform_many_inline` (element.rs:32-36), the
trait's default body: the loop `for v in value.iter_mut()` overwrites each
slot in order with the scalar transform of its current content; the embedding
returns the final state of the mutated slice. -/
def linear_transform_many_inline (f : α → Fp → Fp → α) :
    List α → Fp → Fp → List α
  | [], _, _ => []
  | x :: xs, slope, intercept =>
    f x slope intercept :: linear_transform_many_inline f xs slope intercept

/-- The closed set of NIfTI element types for which `DataElement` is
implemented (element.rs:113-202). -/
inductive Typ where
  | u8 | i8 | u16 | i16 | u32 | i32 | u64 | i64 | f32 | f64
deriving DecidableEq

/-- Byte width of each element type. -/
def width : Typ → ℕ
  | .u8 => 1
  | .i8 => 1
  | .u16 => 2
  | .i16 => 2
  | .u32 => 4
  | .i32 => 4
  | .u64 => 8
  | .i64 => 8
  | .f32 => 4
  | .f64 => 8

/-- The three rescale strategies a `DataElement` implementation can name as
its associated `type Transform`. -/
inductive Strategy where
  | viaF32 | viaF64 | viaOriginal
deriving DecidableEq

/-- The associated `type Transform` chosen by each `DataElement` impl in the
source (element.rs:114, 123, 132, 141, 150, 159, 168, 177, 186, 195). -/
def transformOf : Typ → Strategy
  | .u8 => .viaF32
  | .i8 => .viaF32
  | .u16 => .viaF32
  | .i16 => .viaF32
  | .u32 => .viaF32
  | .i32 => .viaF32
  | .u64 => .viaF64
  | .i64 => .viaF64
  | .f32 => .viaOriginal
  | .f64 => .viaOriginal

/-- Modelled from the spec: the strategy table of section 4.2 —
via-reduced-precision (32-bit float) for u8, i8, u16, i16, u32, i32;
via-extended-precision (64-bit float) for u64, i64; via-native-type for f32
and f64. Stated separately from `transformOf` so the source's dispatch can be
compared against the spec's. -/
def transformOfSpec : Typ → Strategy
  | .u8 => .viaF32
  | .i8 => .viaF32
  | .u16 => .viaF32
  | .i16 => .viaF32
  | .u32 => .viaF32
  | .i32 => .viaF32
  | .u64 => .viaF64
  | .i64 => .viaF64
  | .f32 => .viaOriginal
  | .f64 => .viaOriginal

/-- `<u8 as DataElement>::Transform::linear_transform` with the `AsPrimitive`
casts of `u8`: values live in ℕ (range enforced by the saturating cast). -/
def u8_linear_transform (v : ℕ) (slope intercept : Fp) : ℕ :=
  LinearTransformViaF32.linear_transform (fp_of_nat fmt32) (fp_to_uint 8) v slope intercept

/-- `<i8 as DataElement>::Transform::linear_transform` with the casts of `i8`. -/
def i8_linear_transform (v : ℤ) (slope intercept : Fp) : ℤ :=
  LinearTransformViaF32.linear_transform (fp_of_int fmt32) (fp_to_int 8) v slope intercept

/-- `<u16 as DataElement>::Transform::linear_transform` with the casts of `u16`. -/
def u16_linear_transform (v : ℕ) (slope intercept : Fp) : ℕ :=
  LinearTransformViaF32.linear_transform (fp_of_nat fmt32) (fp_to_uint 16) v slope intercept

/-- `<i16 as DataElement>::Transform::linear_transform` with the casts of `i16`. -/
def i16_linear_transform (v : ℤ) (slope intercept : Fp) : ℤ :=
  LinearTransformViaF32.linear_transform (fp_of_int fmt32) (fp_to_int 16) v slope intercept

/-- `<u32 as DataElement>::Transform::linear_transform` with the casts of `u32`. -/
def u32_linear_transform (v : ℕ) (slope intercept : Fp) : ℕ :=
  LinearTransformViaF32.linear_transform (fp_of_nat fmt32) (fp_to_uint 32) v slope intercept

/-- `<i32 as DataElement>::Transform::linear_transform` with the casts of `i32`. -/
def i32_linear_transform (v : ℤ) (slope intercept : Fp) : ℤ :=
  LinearTransformViaF32.linear_transform (fp_of_int fmt32) (fp_to_int 32) v slope intercept

/-- `<u64 as DataElement>::Transform::linear_transform` with the casts of `u64`. -/
def u64_linear_transform (v : ℕ) (slope intercept : Fp) : ℕ :=
  LinearTransformViaF64.linear_transform (fp_of_nat fmt64) (fp_to_uint 64) v slope intercept

/-- `<i64 as DataElement>::Transform::linear_transform` with the casts of `i64`. -/
def i64_linear_transform (v : ℤ) (slope intercept : Fp) : ℤ :=
  LinearTransformViaF64.linear_transform (fp_of_int fmt64) (fp_to_int 64) v slope intercept

/-- `<f32 as DataElement>::Transform::linear_transform`: `ViaOriginal` at
`T = f32` — the `f32 -> T` cast is the identity and the arithmetic is `f32`'s
own. -/
def f32_linear_transform (v : Fp) (slope intercept : Fp) : Fp :=
  LinearTransformViaOriginal.linear_transform id f32_mul f32_add v slope intercept

/-- `<f64 as DataElement>::Transform::linear_transform`: `ViaOriginal` at
`T = f64` — the `f32 -> T` cast widens exactly and the arithmetic is `f64`'s
own. -/
def f64_linear_transform (v : Fp) (slope intercept : Fp) : Fp :=
  LinearTransformViaOriginal.linear_transform f32_to_f64 f64_mul f64_add v slope intercept

/-- Modelled from the spec: `util::Endianness` (the repository's `util`
module is not under src/) — "a two-valued tag, little-endian or big-endian,
describing how multi-byte elements are laid out in the source buffer". -/
inductive Endianness where
  | LE | BE
deriving DecidableEq

/-- The error carried by the `error::Result` of the decode operations (the
`error` module is not under src/): the only failure the embedded byte
sources produce is premature exhaustion, the "underlying read failure" of
the spec's error taxonomy. -/
inductive ReadErr where
  | eof
deriving DecidableEq

/-- A sequential byte source together with the exact-read primitive of the
`Read`/`byteorder` boundary: take exactly `n` leading bytes and return them
with the remainder of the source, or fail with a read error if the source is
exhausted first. Bytes are naturals below 256. -/
def read_bytes (n : ℕ) (src : List ℕ) : Except ReadErr (List ℕ × List ℕ) :=
  if n ≤ src.length then .ok (src.take n, src.drop n) else .error .eof

/-- Reassemble an unsigned value from `bs` per the byte order: little-endian
reads the least-significant byte first, big-endian the most-significant. -/
def uN_from_bytes : Endianness → List ℕ → ℕ
  | .LE, bs => bs.foldr (fun b acc => b + 256 * acc) 0
  | .BE, bs => bs.foldl (fun acc b => 256 * acc + b) 0

/-- Reinterpret the unsigned `w`-byte value `v` as a two's-complement signed
integer, as the `i8`/`i16`/`i32`/`i64` readers of `byteorder` do. -/
def toSigned (w : ℕ) (v : ℕ) : ℤ :=
  if v < 2 ^ (8 * w - 1) then (v : ℤ) else (v : ℤ) - 2 ^ (8 * w)

/-- Decode a 32-bit word as an IEEE-754 binary32 datum (sign bit, 8 exponent
bits, 23 fraction bits), as `byteorder`'s `read_f32` does after assembling
the word. -/
def fp_of_bits32 (w : ℕ) : Fp :=
  let s := decide (2 ^ 31 ≤ w % 2 ^ 32)
  let ex : ℕ := (w / 2 ^ 23) % 2 ^ 8
  let mant : ℕ := w % 2 ^ 23
  if ex = 255 then (if mant = 0 then .inf s else .nan)
  else if ex = 0 then .fin s mant (-149)
  else .fin s (2 ^ 23 + mant) ((ex : ℤ) - 150)

/-- Decode a 64-bit word as an IEEE-754 binary64 datum (sign bit, 11 exponent
bits, 52 fraction bits), as `byteorder`'s `read_f64` does after assembling
the word. -/
def fp_of_bits64 (w : ℕ) : Fp :=
  let s := decide (2 ^ 63 ≤ w % 2 ^ 64)
  let ex : ℕ := (w / 2 ^ 52) % 2 ^ 11
  let mant : ℕ := w % 2 ^ 52
  if ex = 2047 then (if mant = 0 then .inf s else .nan)
  else if ex = 0 then .fin s mant (-1074)
  else .fin s (2 ^ 52 + mant) ((ex : ℤ) - 1075)

/-- `<u8 as DataElement>::from_raw` (element.rs:118-120): `src.read_u8()`,
byte order ignored; the read error is propagated (`map_err(From::from)`). -/
def u8_from_raw (src : List ℕ) (_ : Endianness) : Except ReadErr (ℕ × List ℕ) :=
  (read_bytes 1 src).map (fun p => (uN_from_bytes .LE p.1, p.2))

/-- `<i8 as DataElement>::from_raw` (element.rs:127-129): `src.read_i8()`,
byte order ignored; the read error is propagated. -/
def i8_from_raw (src : List ℕ) (_ : Endianness) : Except ReadErr (ℤ × List ℕ) :=
  (read_bytes 1 src).map (fun p => (toSigned 1 (uN_from_bytes .LE p.1), p.2))

/-- `<u16 as DataElement>::from_raw` (element.rs:136-138): `e.read_u16(src)`.
Modelled from the spec for the `util` part not under src/: the byte-order
tag reassembles exactly `width` bytes and propagates the read error. -/
def u16_from_raw (src : List ℕ) (e : Endianness) : Except ReadErr (ℕ × List ℕ) :=
  (read_bytes 2 src).map (fun p => (uN_from_bytes e p.1, p.2))

/-- `<i16 as DataElement>::from_raw` (element.rs:145-147): `e.read_i16(src)`. -/
def i16_from_raw (src : List ℕ) (e : Endianness) : Except ReadErr (ℤ × List ℕ) :=
  (read_bytes 2 src).map (fun p => (toSigned 2 (uN_from_bytes e p.1), p.2))

/-- `<u32 as DataElement>::from_raw` (element.rs:154-156): `e.read_u32(src)`. -/
def u32_from_raw (src : List ℕ) (e : Endianness) : Except ReadErr (ℕ × List ℕ) :=
  (read_bytes 4 src).map (fun p => (uN_from_bytes e p.1, p.2))

/-- `<i32 as DataElement>::from_raw` (element.rs:163-165): `e.read_i32(src)`. -/
def i32_from_raw (src : List ℕ) (e : Endianness) : Except ReadErr (ℤ × List ℕ) :=
  (read_bytes 4 src).map (fun p => (toSigned 4 (uN_from_bytes e p.1), p.2))

/-- `<u64 as DataElement>::from_raw` (element.rs:172-174): `e.read_u64(src)`. -/
def u64_from_raw (src : List ℕ) (e : Endianness) : Except ReadErr (ℕ × List ℕ) :=
  (read_bytes 8 src).map (fun p => (uN_from_bytes e p.1, p.2))

/-- `<i64 as DataElement>::from_raw` (element.rs:181-183): `e.read_i64(src)`. -/
def i64_from_raw (src : List ℕ) (e : Endianness) : Except ReadErr (ℤ × List ℕ) :=
  (read_bytes 8 src).map (fun p => (toSigned 8 (uN_from_bytes e p.1), p.2))

/-- `<f32 as DataElement>::from_raw` (element.rs:190-192): `e.read_f32(src)`. -/
def f32_from_raw (src : List ℕ) (e : Endianness) : Except ReadErr (Fp × List ℕ) :=
  (read_bytes 4 src).map (fun p => (fp_of_bits32 (uN_from_bytes e p.1), p.2))

/-- `<f64 as DataElement>::from_raw` (element.rs:199-201): `e.read_f64(src)`. -/
def f64_from_raw (src : List ℕ) (e : Endianness) : Except ReadErr (Fp × List ℕ) :=
  (read_bytes 8 src).map (fun p => (fp_of_bits64 (uN_from_bytes e p.1), p.2))

/-- Cut a byte list into consecutive chunks of `w` bytes, with fuel for
structural termination; a trailing remainder shorter than `w` yields no
chunk. -/
def chunksGo (w : ℕ) : ℕ → List ℕ → List (List ℕ)
  | 0, _ => []
  | fuel + 1, l => if w ≤ l.length then l.take w :: chunksGo w fuel (l.drop w) else []

/-- Cut a byte list into consecutive `w`-byte chunks. -/
def chunks (w : ℕ) (l : List ℕ) : List (List ℕ) := chunksGo w l.length l

/-- Modelled from the spec: `util::convert_bytes_to` (the repository's
`util` module is not under src/) — the whole-buffer decode "iterates the
buffer in fixed-width chunks, decoding each with `decode_one` semantics"
according to the byte order. Its Rust signature, forced by the call sites in
src/ (`Ok(convert_bytes_to(vec, e))`), is infallible (`Vec<u8> -> Vec<T>`);
a trailing remainder that cannot form a whole element is dropped, matching
the permissive reinterpretation (`guarded_transmute_pod_vec_permissive` of
the `safe-transmute` crate) the source builds on. -/
def convert_bytes_to (w : ℕ) (dec : List ℕ → α) (vec : List ℕ) : List α :=
  (chunks w vec).map dec

/-- `<u8 as DataElement>::from_raw_vec` (element.rs:115-117): `Ok(vec)` —
the buffer is returned as the sample sequence unchanged. -/
def u8_from_raw_vec (vec : List ℕ) (_ : Endianness) : Except ReadErr (List ℕ) :=
  .ok vec

/-- `<i8 as DataElement>::from_raw_vec` (element.rs:124-126):
`Ok(guarded_transmute_pod_vec_permissive(vec))` — each byte reinterpreted in
place as an `i8`. -/
def i8_from_raw_vec (vec : List ℕ) (_ : Endianness) : Except ReadErr (List ℤ) :=
  .ok (vec.map (toSigned 1))

/-- `<u16 as DataElement>::from_raw_vec` (element.rs:133-135):
`Ok(convert_bytes_to(vec, e))`. -/
def u16_from_raw_vec (vec : List ℕ) (e : Endianness) : Except ReadErr (List ℕ) :=
  .ok (convert_bytes_to 2 (uN_from_bytes e) vec)

/-- `<i16 as DataElement>::from_raw_vec` (element.rs:142-144):
`Ok(convert_bytes_to(vec, e))`. -/
def i16_from_raw_vec (vec : List ℕ) (e : Endianness) : Except ReadErr (List ℤ) :=
  .ok (convert_bytes_to 2 (fun bs => toSigned 2 (uN_from_bytes e bs)) vec)

/-- `<u32 as DataElement>::from_raw_vec` (element.rs:151-153):
`Ok(convert_bytes_to(vec, e))`. -/
def u32_from_raw_vec (vec : List ℕ) (e : Endianness) : Except ReadErr (List ℕ) :=
  .ok (convert_bytes_to 4 (uN_from_bytes e) vec)

/-- `<i32 as DataElement>::from_raw_vec` (element.rs:160-162):
`Ok(convert_bytes_to(vec, e))`. -/
def i32_from_raw_vec (vec : List ℕ) (e : Endianness) : Except ReadErr (List ℤ) :=
  .ok (convert_bytes_to 4 (fun bs => toSigned 4 (uN_from_bytes e bs)) vec)

/-- `<u64 as DataElement>::from_raw_vec` (element.rs:169-171):
`Ok(convert_bytes_to(vec, e))`. -/
def u64_from_raw_vec (vec : List ℕ) (e : Endianness) : Except ReadErr (List ℕ) :=
  .ok (convert_bytes_to 8 (uN_from_bytes e) vec)

/-- `<i64 as DataElement>::from_raw_vec` (element.rs:178-180):
`Ok(convert_bytes_to(vec, e))`. -/
def i64_from_raw_vec (vec : List ℕ) (e : Endianness) : Except ReadErr (List ℤ) :=
  .ok (convert_bytes_to 8 (fun bs => toSigned 8 (uN_from_bytes e bs)) vec)

/-- `<f32 as DataElement>::from_raw_vec` (element.rs:187-189):
`Ok(convert_bytes_to(vec, e))`. -/
def f32_from_raw_vec (vec : List ℕ) (e : Endianness) : Except ReadErr (List Fp) :=
  .ok (convert_bytes_to 4 (fun bs => fp_of_bits32 (uN_from_bytes e bs)) vec)

/-- `<f64 as DataElement>::from_raw_vec` (element.rs:196-198):
`Ok(convert_bytes_to(vec, e))`. -/
def f64_from_raw_vec (vec : List ℕ) (e : Endianness) : Except ReadErr (List Fp) :=
  .ok (convert_bytes_to 8 (fun bs => fp_of_bits64 (uN_from_bytes e bs)) vec)

/-- Chunking a list with sufficient fuel produces one chunk per full `w`-byte
group, i.e. `length / w` chunks. -/
theorem chunksGo_length (w : ℕ) (hw : 0 < w) :
    ∀ (fuel : ℕ) (l : List ℕ), l.length ≤ fuel →
      (chunksGo w fuel l).length = l.length / w := by
  intro fuel
  induction fuel with
  | zero =>
    intro l hl
    have h0 : l.length = 0 := Nat.le_zero.mp hl
    simp [chunksGo, h0, Nat.div_eq_of_lt hw]
  | succ f ih =>
    intro l hl
    by_cases h : w ≤ l.length
    · have hdrop : (l.drop w).length ≤ f := by
        simp only [List.length_drop]
        omega
      have := ih (l.drop w) hdrop
      simp only [chunksGo, if_pos h, List.length_cons, this, List.length_drop]
      rw [Nat.div_eq_sub_div hw h]
    · simp [chunksGo, if_neg h, Nat.div_eq_of_lt (Nat.lt_of_not_le h)]

/-- The whole-buffer per-element conversion produces exactly
`buffer length / element width` samples. -/
theorem convert_bytes_to_length (w : ℕ) (hw : 0 < w) (dec : List ℕ → α)
    (vec : List ℕ) : (convert_bytes_to w dec vec).length = vec.length / w := by
  simp [convert_bytes_to, chunks, chunksGo_length w hw vec.length vec le_rfl]

/-- C1: for every supported element type (represented by its `AsPrimitive`
cast pair, and for `ViaOriginal` by its cast and its own multiplication and
addition), every value and every intercept, `linear_transform` with slope
exactly `0.0` returns the value unchanged — the zero-slope guard fires before
any arithmetic in all three strategies, so the result is bit-for-bit the
input; also instantiated at each of the ten concrete element types. -/
theorem claim_C1_zero_slope_identity (α β : Type) (toW ofB : α → Fp)
    (ofW toB : Fp → α) (ofO : Fp → β) (mulW addW : β → β → β)
    (v : α) (w : β) (intercept : Fp) :
    LinearTransformViaF32.linear_transform toW ofW v f32_zero intercept = v ∧
    LinearTransformViaF64.linear_transform ofB toB v f32_zero intercept = v ∧
    LinearTransformViaOriginal.linear_transform ofO mulW addW w f32_zero intercept = w ∧
    (∀ x : ℕ, u8_linear_transform x f32_zero intercept = x) ∧
    (∀ x : ℤ, i8_linear_transform x f32_zero intercept = x) ∧
    (∀ x : ℕ, u16_linear_transform x f32_zero intercept = x) ∧
    (∀ x : ℤ, i16_linear_transform x f32_zero intercept = x) ∧
    (∀ x : ℕ, u32_linear_transform x f32_zero intercept = x) ∧
    (∀ x : ℤ, i32_linear_transform x f32_zero intercept = x) ∧
    (∀ x : ℕ, u64_linear_transform x f32_zero intercept = x) ∧
    (∀ x : ℤ, i64_linear_transform x f32_zero intercept = x) ∧
    (∀ x : Fp, f32_linear_transform x f32_zero intercept = x) ∧
    (∀ x : Fp, f64_linear_transform x f32_zero intercept = x) :=
  ⟨rfl, rfl, rfl, fun _ => rfl, fun _ => rfl, fun _ => rfl, fun _ => rfl, fun _ => rfl,
    fun _ => rfl, fun _ => rfl, fun _ => rfl, fun _ => rfl, fun _ => rfl⟩

/-- C10: IEEE-754 negative zero compares equal to positive zero under the
`slope == 0.` guard, so in all three strategies a slope of `-0.0` also
returns every value unchanged, for every element type and every intercept;
also instantiated at each of the ten concrete element types. -/
theorem claim_C10_negative_zero_slope_identity (α β : Type) (toW ofB : α → Fp)
    (ofW toB : Fp → α) (ofO : Fp → β) (mulW addW : β → β → β)
    (v : α) (w : β) (intercept : Fp) :
    LinearTransformViaF32.linear_transform toW ofW v (f32_neg f32_zero) intercept = v ∧
    LinearTransformViaF64.linear_transform ofB toB v (f32_neg f32_zero) intercept = v ∧
    LinearTransformViaOriginal.linear_transform ofO mulW addW w (f32_neg f32_zero) intercept = w ∧
    (∀ x : ℕ, u8_linear_transform x (f32_neg f32_zero) intercept = x) ∧
    (∀ x : ℤ, i8_linear_transform x (f32_neg f32_zero) intercept = x) ∧
    (∀ x : ℕ, u16_linear_transform x (f32_neg f32_zero) intercept = x) ∧
    (∀ x : ℤ, i16_linear_transform x (f32_neg f32_zero) intercept = x) ∧
    (∀ x : ℕ, u32_linear_transform x (f32_neg f32_zero) intercept = x) ∧
    (∀ x : ℤ, i32_linear_transform x (f32_neg f32_zero) intercept = x) ∧
    (∀ x : ℕ, u64_linear_transform x (f32_neg f32_zero) intercept = x) ∧
    (∀ x : ℤ, i64_linear_transform x (f32_neg f32_zero) intercept = x) ∧
    (∀ x : Fp, f32_linear_transform x (f32_neg f32_zero) intercept = x) ∧
    (∀ x : Fp, f64_linear_transform x (f32_neg f32_zero) intercept = x) :=
  ⟨rfl, rfl, rfl, fun _ => rfl, fun _ => rfl, fun _ => rfl, fun _ => rfl, fun _ => rfl,
    fun _ => rfl, fun _ => rfl, fun _ => rfl, fun _ => rfl, fun _ => rfl⟩

/-- C2: the per-type choice of rescale strategy made by the `DataElement`
impls (`transformOf`, read off the associated `type Transform` of each impl)
coincides with the spec's fixed table (`transformOfSpec`): `f32` working
precision for u8, i8, u16, i16, u32, i32; `f64` working precision for u64 and
i64 (`LinearTransformViaF64` converts slope and intercept to `f64` before
multiplying and adding); the element's own type for f32 and f64. -/
theorem claim_C2_strategy_dispatch : ∀ t : Typ, transformOf t = transformOfSpec t := by
  intro t
  cases t <;> rfl

/-- C5: for every element type and every transform `f` standing for the
strategy's `linear_transform`, the trait's bulk default
`linear_transform_many` equals the element-wise map of the scalar transform
in sequence order (the input list is a value in this embedding, hence
unmodified), and the in-place default `linear_transform_many_inline` leaves
the sequence equal to what `linear_transform_many` produces from a copy. -/
theorem claim_C5_bulk_scalar_equivalence (α : Type) (f : α → Fp → Fp → α)
    (values : List α) (slope intercept : Fp) :
    linear_transform_many f values slope intercept
        = values.map (fun x => f x slope intercept) ∧
    linear_transform_many_inline f values slope intercept
        = linear_transform_many f values slope intercept := by
  refine ⟨rfl, ?_⟩
  induction values with
  | nil => rfl
  | cons x xs ih =>
    simp only [linear_transform_many_inline, linear_transform_many, List.map_cons] at ih ⊢
    exact congrArg _ ih

/-- C9: `<u8 as DataElement>::from_raw_vec` returns `Ok(vec)` — the input
byte vector itself, for every length (including empty) and both byte orders;
it can never return an error. -/
theorem claim_C9_u8_decode_identity (vec : List ℕ) (e : Endianness) :
    u8_from_raw_vec vec e = .ok vec := rfl

/-- C3 (divergence witness): decoding a truncated buffer does NOT return a
decode error. `from_raw_vec` for every multi-byte type wraps the infallible
`convert_bytes_to` in `Ok(..)`, so no input can produce an error; on the
3-byte buffer `[0x01, 0x00, 0x02]` decoded as `u16` little-endian it returns
`Ok([1])` — the trailing byte is silently dropped — where the claim and the
spec's error taxonomy require a decode error. -/
theorem claim_C3_truncated_buffer_not_rejected :
    (∀ (vec : List ℕ) (e : Endianness), (u16_from_raw_vec vec e).isOk = true) ∧
    u16_from_raw_vec [1, 0, 2] .LE = .ok [1] :=
  ⟨fun _ _ => rfl, rfl⟩

/-- C6: the buffer `[0x01, 0x00]` decodes as one `u16` to `1` under
little-endian and to `256` under big-endian byte order (both through the
single-element reader `from_raw`, which consumes the whole two-byte source,
and through the buffer decoder `from_raw_vec`); and rescaling the `u16`
value `1` with slope `2.0`, intercept `1.0` through the `f32` strategy
yields the `u16` value `3`. -/
theorem claim_C6_concrete_scenario :
    u16_from_raw [1, 0] .LE = .ok (1, []) ∧
    u16_from_raw [1, 0] .BE = .ok (256, []) ∧
    u16_from_raw_vec [1, 0] .LE = .ok [1] ∧
    u16_from_raw_vec [1, 0] .BE = .ok [256] ∧
    u16_linear_transform 1 (Fp.fin false 2 0) (Fp.fin false 1 0) = 3 :=
  ⟨rfl, rfl, rfl, rfl, by decide⟩

/-- C4: for every element type and both byte orders, decoding a buffer whose
length is an exact multiple of the element width produces a sample sequence
of length exactly `length / width` — every element of the buffer is decoded,
no more and no fewer. -/
theorem claim_C4_exact_multiple_full_decode (vec : List ℕ) (e : Endianness) :
    ((width .u8 ∣ vec.length) →
      (u8_from_raw_vec vec e).toOption.map List.length = some (vec.length / width .u8)) ∧
    ((width .i8 ∣ vec.length) →
      (i8_from_raw_vec vec e).toOption.map List.length = some (vec.length / width .i8)) ∧
    ((width .u16 ∣ vec.length) →
      (u16_from_raw_vec vec e).toOption.map List.length = some (vec.length / width .u16)) ∧
    ((width .i16 ∣ vec.length) →
      (i16_from_raw_vec vec e).toOption.map List.length = some (vec.length / width .i16)) ∧
    ((width .u32 ∣ vec.length) →
      (u32_from_raw_vec vec e).toOption.map List.length = some (vec.length / width .u32)) ∧
    ((width .i32 ∣ vec.length) →
      (i32_from_raw_vec vec e).toOption.map List.length = some (vec.length / width .i32)) ∧
    ((width .u64 ∣ vec.length) →
      (u64_from_raw_vec vec e).toOption.map List.length = some (vec.length / width .u64)) ∧
    ((width .i64 ∣ vec.length) →
      (i64_from_raw_vec vec e).toOption.map List.length = some (vec.length / width .i64)) ∧
    ((width .f32 ∣ vec.length) →
      (f32_from_raw_vec vec e).toOption.map List.length = some (vec.length / width .f32)) ∧
    ((width .f64 ∣ vec.length) →
      (f64_from_raw_vec vec e).toOption.map List.length = some (vec.length / width .f64)) := by
  refine ⟨?_, ?_, ?_, ?_, ?_, ?_, ?_, ?_, ?_, ?_⟩ <;> intro _
  · simp [u8_from_raw_vec, Except.toOption, width]
  · simp [i8_from_raw_vec, Except.toOption, width]
  · simp [u16_from_raw_vec, Except.toOption, width,
      convert_bytes_to_length 2 (by norm_num)]
  · simp [i16_from_raw_vec, Except.toOption, width,
      convert_bytes_to_length 2 (by norm_num)]
  · simp [u32_from_raw_vec, Except.toOption, width,
      convert_bytes_to_length 4 (by norm_num)]
  · simp [i32_from_raw_vec, Except.toOption, width,
      convert_bytes_to_length 4 (by norm_num)]
  · simp [u64_from_raw_vec, Except.toOption, width,
      convert_bytes_to_length 8 (by norm_num)]
  · simp [i64_from_raw_vec, Except.toOption, width,
      convert_bytes_to_length 8 (by norm_num)]
  · simp [f32_from_raw_vec, Except.toOption, width,
      convert_bytes_to_length 4 (by norm_num)]
  · simp [f64_from_raw_vec, Except.toOption, width,
      convert_bytes_to_length 8 (by norm_num)]

/-- C4 at a concrete input: an 8-byte buffer is an exact multiple of every
element width, and each type decodes it to exactly `8 / width` samples. -/
theorem claim_C4_witness :
    (u8_from_raw_vec [1, 2, 3, 4, 5, 6, 7, 8] .LE).toOption.map List.length = some 8 ∧
    (i8_from_raw_vec [1, 2, 3, 4, 5, 6, 7, 8] .LE).toOption.map List.length = some 8 ∧
    (u16_from_raw_vec [1, 2, 3, 4, 5, 6, 7, 8] .LE).toOption.map List.length = some 4 ∧
    (i16_from_raw_vec [1, 2, 3, 4, 5, 6, 7, 8] .LE).toOption.map List.length = some 4 ∧
    (u32_from_raw_vec [1, 2, 3, 4, 5, 6, 7, 8] .LE).toOption.map List.length = some 2 ∧
    (i32_from_raw_vec [1, 2, 3, 4, 5, 6, 7, 8] .LE).toOption.map List.length = some 2 ∧
    (u64_from_raw_vec [1, 2, 3, 4, 5, 6, 7, 8] .LE).toOption.map List.length = some 1 ∧
    (i64_from_raw_vec [1, 2, 3, 4, 5, 6, 7, 8] .LE).toOption.map List.length = some 1 ∧
    (f32_from_raw_vec [1, 2, 3, 4, 5, 6, 7, 8] .LE).toOption.map List.length = some 2 ∧
    (f64_from_raw_vec [1, 2, 3, 4, 5, 6, 7, 8] .LE).toOption.map List.length = some 1 := by
  have h := claim_C4_exact_multiple_full_decode [1, 2, 3, 4, 5, 6, 7, 8] .LE
  exact ⟨h.1 (by decide), h.2.1 (by decide), h.2.2.1 (by decide), h.2.2.2.1 (by decide),
    h.2.2.2.2.1 (by decide), h.2.2.2.2.2.1 (by decide), h.2.2.2.2.2.2.1 (by decide),
    h.2.2.2.2.2.2.2.1 (by decide), h.2.2.2.2.2.2.2.2.1 (by decide),
    h.2.2.2.2.2.2.2.2.2 (by decide)⟩

/-- A decoder of the form `read n bytes, then map` fails with the propagated
read error exactly when the source holds fewer than `n` bytes, and on success
consumes exactly `n` bytes, leaving `drop n` of the source. -/
theorem read_map_characterization (n : ℕ) (f : List ℕ → β) (src : List ℕ) :
    (((read_bytes n src).map (fun p => (f p.1, p.2))
        = (.error .eof : Except ReadErr (β × List ℕ))) ↔ src.length < n) ∧
    (((read_bytes n src).map (fun p => (f p.1, p.2))).toOption.map Prod.snd
        = if n ≤ src.length then some (src.drop n) else none) := by
  by_cases h : n ≤ src.length
  · constructor
    · simp only [read_bytes, if_pos h, Except.map]
      constructor
      · intro hx
        exact absurd hx (by simp)
      · omega
    · simp [read_bytes, if_pos h, Except.map, Except.toOption]
  · constructor
    · simp only [read_bytes, if_neg h, Except.map]
      constructor
      · intro _
        omega
      · intro _
        trivial
    · simp [read_bytes, if_neg h, Except.map, Except.toOption]

/-- C7: for every element type, `from_raw` reads exactly `width` bytes from
the sequential byte source (on success the remainder is the source with the
first `width` bytes consumed), and if the source is exhausted before a full
element is available, it returns the underlying read error — propagated as a
typed error value, not swallowed. -/
theorem claim_C7_decode_one_reads_width_or_propagates (src : List ℕ) (e : Endianness) :
    ((u8_from_raw src e = .error .eof ↔ src.length < width .u8) ∧
      ((u8_from_raw src e).toOption.map Prod.snd
          = if width .u8 ≤ src.length then some (src.drop (width .u8)) else none)) ∧
    ((i8_from_raw src e = .error .eof ↔ src.length < width .i8) ∧
      ((i8_from_raw src e).toOption.map Prod.snd
          = if width .i8 ≤ src.length then some (src.drop (width .i8)) else none)) ∧
    ((u16_from_raw src e = .error .eof ↔ src.length < width .u16) ∧
      ((u16_from_raw src e).toOption.map Prod.snd
          = if width .u16 ≤ src.length then some (src.drop (width .u16)) else none)) ∧
    ((i16_from_raw src e = .error .eof ↔ src.length < width .i16) ∧
      ((i16_from_raw src e).toOption.map Prod.snd
          = if width .i16 ≤ src.length then some (src.drop (width .i16)) else none)) ∧
    ((u32_from_raw src e = .error .eof ↔ src.length < width .u32) ∧
      ((u32_from_raw src e).toOption.map Prod.snd
          = if width .u32 ≤ src.length then some (src.drop (width .u32)) else none)) ∧
    ((i32_from_raw src e = .error .eof ↔ src.length < width .i32) ∧
      ((i32_from_raw src e).toOption.map Prod.snd
          = if width .i32 ≤ src.length then some (src.drop (width .i32)) else none)) ∧
    ((u64_from_raw src e = .error .eof ↔ src.length < width .u64) ∧
      ((u64_from_raw src e).toOption.map Prod.snd
          = if width .u64 ≤ src.length then some (src.drop (width .u64)) else none)) ∧
    ((i64_from_raw src e = .error .eof ↔ src.length < width .i64) ∧
      ((i64_from_raw src e).toOption.map Prod.snd
          = if width .i64 ≤ src.length then some (src.drop (width .i64)) else none)) ∧
    ((f32_from_raw src e = .error .eof ↔ src.length < width .f32) ∧
      ((f32_from_raw src e).toOption.map Prod.snd
          = if width .f32 ≤ src.length then some (src.drop (width .f32)) else none)) ∧
    ((f64_from_raw src e = .error .eof ↔ src.length < width .f64) ∧
      ((f64_from_raw src e).toOption.map Prod.snd
          = if width .f64 ≤ src.length then some (src.drop (width .f64)) else none)) :=
  ⟨read_map_characterization 1 (uN_from_bytes .LE) src,
    read_map_characterization 1 (fun bs => toSigned 1 (uN_from_bytes .LE bs)) src,
    read_map_characterization 2 (uN_from_bytes e) src,
    read_map_characterization 2 (fun bs => toSigned 2 (uN_from_bytes e bs)) src,
    read_map_characterization 4 (uN_from_bytes e) src,
    read_map_characterization 4 (fun bs => toSigned 4 (uN_from_bytes e bs)) src,
    read_map_characterization 8 (uN_from_bytes e) src,
    read_map_characterization 8 (fun bs => toSigned 8 (uN_from_bytes e bs)) src,
    read_map_characterization 4 (fun bs => fp_of_bits32 (uN_from_bytes e bs)) src,
    read_map_characterization 8 (fun bs => fp_of_bits64 (uN_from_bytes e bs)) src⟩

set_option maxRecDepth 100000 in
/-- C8 (counterexample): the round trip
`transform_one(transform_one(v, s, i), 1/s, -i/s)` does NOT recover `v`
within relative error `2^-52` for all `u64` values and nonzero slopes. At
`v = 1`, `s = 49.0`, `i = 0.0`: the forward transform yields `49`, but the
inverse slope `1/49` is an `f32` with only 24 significant bits and rounds
below the exact reciprocal, so `49 * (1/49 : f32)` computed in `f64` lands
just below `1` and the cast back to `u64` truncates it to `0` — a relative
error of `1`, vastly exceeding `2^-52`. -/
theorem claim_C8_counterexample :
    u64_linear_transform 1 (Fp.fin false 49 0) (Fp.fin false 0 0) = 49 ∧
    u64_linear_transform (u64_linear_transform 1 (Fp.fin false 49 0) (Fp.fin false 0 0))
        (f32_div (Fp.fin false 1 0) (Fp.fin false 49 0))
        (f32_div (f32_neg (Fp.fin false 0 0)) (Fp.fin false 49 0)) = 0 := by
  constructor
  · decide
  · decide

set_option maxRecDepth 100000 in
/-- C8 (amended): the extended-precision (`f64`) strategy of `u64`/`i64`
does support exact round trips on well-conditioned inputs: for
`v = 2^40 + 1` (a 41-bit integer a 32-bit float cannot represent), slope
`2.0` and intercept `1.0`, the round trip
`transform_one(transform_one(v, 2.0, 1.0), 1/2, -1/2)` recovers `v` exactly,
for both the unsigned and the signed 64-bit type; but the universal relative
error bound `2^-52` of the original claim fails (see the counterexample),
since slope and intercept enter as `f32` values and the result is truncated
back to the integer type. -/
theorem claim_C8_amended_well_conditioned_round_trip :
    u64_linear_transform
        (u64_linear_transform (2 ^ 40 + 1) (Fp.fin false 2 0) (Fp.fin false 1 0))
        (f32_div (Fp.fin false 1 0) (Fp.fin false 2 0))
        (f32_div (f32_neg (Fp.fin false 1 0)) (Fp.fin false 2 0)) = 2 ^ 40 + 1 ∧
    i64_linear_transform
        (i64_linear_transform (-(2 ^ 40 + 1)) (Fp.fin false 2 0) (Fp.fin false 1 0))
        (f32_div (Fp.fin false 1 0) (Fp.fin false 2 0))
        (f32_div (f32_neg (Fp.fin false 1 0)) (Fp.fin false 2 0)) = -(2 ^ 40 + 1) := by
  constructor
  · decide
  · decide
